import Mathlib

/-!
Verification of the BitNet operator-script repository against its
natural-language specification.

The Python sources are shallowly embedded: strings become `List Char`,
the regex `(\d+\.?\d*)\s*tokens per second` becomes an executable
scanning function (the pattern is backtracking-free on this alphabet, so
a deterministic greedy matcher is faithful), Python `float`/`int` parsing
of the simple decimal literals produced by that regex is modelled over
`ℚ`, and `str.isprintable` / `str.strip` are modelled on their ASCII
behaviour (the streams the claims quantify over are ASCII).
-/

/-- ASCII decimal digit, the characters matched by the regex class `\d`
on the engine's ASCII output. -/
def isPyDigit (c : Char) : Bool := '0' ≤ c && c ≤ '9'

/-- ASCII whitespace as recognised by Python's `\s` and `str.strip`:
space, tab, newline, carriage return, vertical tab, form feed. -/
def isPySpace (c : Char) : Bool :=
  c = ' ' || c = '\t' || c = '\n' || c = '\x0d' || c = '\x0b' || c = '\x0c'

/-- ASCII fragment of Python's `str.isprintable`: the printable ASCII
range 0x20–0x7e. -/
def isPrintableAscii (c : Char) : Bool := 0x20 ≤ c.toNat && c.toNat ≤ 0x7e

/-- Characters kept by the repository's cleanup filter
`char.isprintable() or char in '\n\t'` (ASCII model). -/
def keptChar (c : Char) : Bool := isPrintableAscii c || c = '\n' || c = '\t'

/-- Python `str.lstrip()` on the ASCII whitespace class. -/
def lstrip (l : List Char) : List Char := l.dropWhile isPySpace

/-- Python `str.rstrip()` on the ASCII whitespace class. -/
def rstrip (l : List Char) : List Char := (l.reverse.dropWhile isPySpace).reverse

/-- Python `str.strip()` on the ASCII whitespace class. -/
def pyStrip (l : List Char) : List Char := rstrip (lstrip l)

/-- Python `sub in s` for strings: `sub` occurs contiguously in `s`. -/
def containsSub (sub s : List Char) : Bool :=
  (List.range (s.length + 1)).any (fun p => sub.isPrefixOf (s.drop p))

/-- All positions at which `sub` occurs in `s`, in increasing order. -/
def occPositions (sub s : List Char) : List Nat :=
  (List.range (s.length + 1)).filter (fun p => sub.isPrefixOf (s.drop p))

/-- Python `s.find(sub)` as an `Option`: the first occurrence position. -/
def findSub (sub s : List Char) : Option Nat := (occPositions sub s).head?

/-- Python `s.rfind(sub)` as an `Option`: the last occurrence position. -/
def rfindSub (sub s : List Char) : Option Nat := (occPositions sub s).getLast?

/-- Python `s.split(sub)[0]`: the text before the first occurrence of
`sub`, or all of `s` when `sub` does not occur. -/
def beforeFirst (sub : List Char) : List Char → List Char
  | [] => []
  | c :: cs => if sub.isPrefixOf (c :: cs) then [] else c :: beforeFirst sub cs

/-- Python `s.split(sub)[-1]` when `sub` occurs: the text after the last
occurrence (computed via `rfind`). -/
def afterLast (sub s : List Char) : List Char :=
  match rfindSub sub s with
  | some p => s.drop (p + sub.length)
  | none => s

/-- Value of an ASCII digit string, `foldl`-style as `int` builds it. -/
def digitsToNat (ds : List Char) : Nat :=
  ds.foldl (fun a c => 10 * a + (c.toNat - 48)) 0

/-- Scaled integer reading of a decimal literal `digits[.digits]`:
the pair (all digits as one integer, number of fractional digits). -/
def parseFloatParts (g : List Char) : Nat × Nat :=
  let ds := g.takeWhile isPyDigit
  match g.dropWhile isPyDigit with
  | '.' :: ds2 =>
    (digitsToNat ds * 10 ^ ds2.length + digitsToNat ds2, ds2.length)
  | _ => (digitsToNat ds, 0)

/-- Python `float()` on the decimal literals produced by the performance
regex (`digits` or `digits.digits*`), modelled exactly over `ℚ`. -/
def parseFloatQ (g : List Char) : ℚ :=
  ((parseFloatParts g).1 : ℚ) / 10 ^ (parseFloatParts g).2

/-- Literal tail of the performance regex. -/
def tpsLit : List Char := "tokens per second".data

/-- Match the required literal at the head of `s`, returning the rest. -/
def dropLit (lit s : List Char) : Option (List Char) :=
  if lit.isPrefixOf s then some (s.drop lit.length) else none

/-- Greedy `\.?\d*` step of the performance regex: consume an optional
decimal point with its following digits, returning the capture-group
contribution and the remaining text. -/
def tpsFracSplit (r1 : List Char) : List Char × List Char :=
  match r1 with
  | '.' :: r => ('.' :: r.takeWhile isPyDigit, r.dropWhile isPyDigit)
  | _ => ([], r1)

theorem tpsFracSplit_snd_length (r1 : List Char) :
    (tpsFracSplit r1).2.length ≤ r1.length := by
  unfold tpsFracSplit
  split
  · rename_i r
    have h := (List.dropWhile_suffix (l := r) (p := isPyDigit)).length_le
    simp only [List.length_cons]
    omega
  · simp

/-- One attempt of the regex `(\d+\.?\d*)\s*tokens per second` anchored
at the head of `s`; returns the capture group and the text after the
match.  The pattern is deterministic: whenever this greedy matcher
fails at a position, every backtracking branch of the Python engine
fails there too, so this models `re` matching faithfully. -/
def matchTPSAt (s : List Char) : Option (List Char × List Char) :=
  let ds := s.takeWhile isPyDigit
  if ds.isEmpty then none
  else
    let fr := tpsFracSplit (s.dropWhile isPyDigit)
    match dropLit tpsLit (fr.2.dropWhile isPySpace) with
    | some rest => some (ds ++ fr.1, rest)
    | none => none

theorem dropLit_length {lit s rest : List Char} (h : dropLit lit s = some rest) :
    rest.length ≤ s.length := by
  unfold dropLit at h
  by_cases hp : lit.isPrefixOf s
  · simp only [hp, if_true, Option.some.injEq] at h
    subst h
    simp
  · simp [hp] at h

theorem matchTPSAt_rest_length {s g rest : List Char}
    (h : matchTPSAt s = some (g, rest)) : rest.length < s.length := by
  unfold matchTPSAt at h
  by_cases hempty : (s.takeWhile isPyDigit).isEmpty
  · simp [hempty] at h
  · simp only [hempty, Bool.false_eq_true, if_false] at h
    cases hd : dropLit tpsLit ((tpsFracSplit (s.dropWhile isPyDigit)).2.dropWhile isPySpace) with
    | none => rw [hd] at h; simp at h
    | some rest' =>
      rw [hd] at h
      simp only [Option.some.injEq, Prod.mk.injEq] at h
      obtain ⟨-, hrest⟩ := h
      subst hrest
      have h1 := dropLit_length hd
      have h2 := (List.dropWhile_suffix (l := (tpsFracSplit (s.dropWhile isPyDigit)).2)
        (p := isPySpace)).length_le
      have h3 := tpsFracSplit_snd_length (s.dropWhile isPyDigit)
      have h4 : (s.takeWhile isPyDigit).length + (s.dropWhile isPyDigit).length = s.length := by
        have h := congrArg List.length (List.takeWhile_append_dropWhile (p := isPyDigit) (l := s))
        rwa [List.length_append] at h
      have h5 : 0 < (s.takeWhile isPyDigit).length := by
        cases htw : s.takeWhile isPyDigit with
        | nil => rw [htw] at hempty; simp at hempty
        | cons a as => simp
      omega

/-- Model of `re.search(r'(\d+\.?\d*)\s*tokens per second', s)`:
the capture group of the leftmost match. -/
def searchTPS : List Char → Option (List Char)
  | [] => none
  | c :: cs =>
    match matchTPSAt (c :: cs) with
    | some (g, _) => some g
    | none => searchTPS cs

/-- Fuel-driven scanner behind `findallTPS`; `fuel ≥ s.length` makes the
fuel irrelevant (each step strictly shortens the text), and structural
recursion on the fuel keeps the function kernel-computable. -/
def findallTPSAux : Nat → List Char → List (List Char)
  | 0, _ => []
  | _ + 1, [] => []
  | fuel + 1, c :: cs =>
    match matchTPSAt (c :: cs) with
    | some (g, rest) => g :: findallTPSAux fuel rest
    | none => findallTPSAux fuel cs

/-- Model of `re.findall(r'(\d+\.?\d*)\s*tokens per second', s)`:
capture groups of all non-overlapping matches, left to right. -/
def findallTPS (s : List Char) : List (List Char) := findallTPSAux s.length s

theorem findallTPSAux_congr :
    ∀ f1 f2 s, s.length ≤ f1 → s.length ≤ f2 →
      findallTPSAux f1 s = findallTPSAux f2 s := by
  intro f1
  induction f1 with
  | zero =>
    intro f2 s h1 _
    have : s = [] := List.length_eq_zero.mp (Nat.le_zero.mp h1)
    subst this
    cases f2 <;> rfl
  | succ f ih =>
    intro f2 s h1 h2
    cases s with
    | nil => cases f2 <;> rfl
    | cons c cs =>
      cases f2 with
      | zero => simp at h2
      | succ f2' =>
        simp only [findallTPSAux]
        cases hm : matchTPSAt (c :: cs) with
        | some pr =>
          obtain ⟨g, rest⟩ := pr
          have hlt := matchTPSAt_rest_length hm
          simp only [List.length_cons] at h1 h2 hlt
          dsimp only
          rw [ih f2' rest (by omega) (by omega)]
        | none =>
          simp only [List.length_cons] at h1 h2
          dsimp only
          rw [ih f2' cs (by omega) (by omega)]

/-- Recurrence satisfied by `findallTPS`, used in place of definitional
unfolding. -/
theorem findallTPS_eq (s : List Char) :
    findallTPS s =
      match s with
      | [] => []
      | c :: cs =>
        match matchTPSAt (c :: cs) with
        | some (g, rest) => g :: findallTPS rest
        | none => findallTPS cs := by
  cases s with
  | nil => rfl
  | cons c cs =>
    show findallTPSAux (cs.length + 1) (c :: cs) = _
    simp only [findallTPSAux]
    cases hm : matchTPSAt (c :: cs) with
    | some pr =>
      obtain ⟨g, rest⟩ := pr
      have hlt := matchTPSAt_rest_length hm
      simp only [List.length_cons] at hlt
      simp only [findallTPS]
      rw [findallTPSAux_congr cs.length rest.length rest (by omega) (by omega)]
    | none =>
      simp only [findallTPS]

example : searchTPS "eval: 2.5 tokens per second and 50 tokens per second".data = some "2.5".data := by decide

example : findallTPS "eval: 2.5 tokens per second and 50 tokens per second".data = ["2.5".data, "50".data] := by decide

example : parseFloatParts "50.25".data = (5025, 2) := by decide

/-! ### Response extractors -/

/-- Role delimiter searched for in the engine output. -/
def assistantMarker : List Char := "Assistant:".data

/-- Metric used by `chat.py`/`chat_advanced.py`/`chat_streaming.py`:
`float(m.group(1))` of the first `re.search` match, `0` when absent. -/
def searchTokensPerSec (output : List Char) : ℚ :=
  match searchTPS output with
  | some g => parseFloatQ g
  | none => 0

/-- Metric used by `benchmark.py`/`benchmark_optimized.py`:
`float(matches[-1]) if matches else 0` over `re.findall`. -/
def benchmarkTokensPerSec (output : List Char) : ℚ :=
  match (findallTPS output).getLast? with
  | some g => parseFloatQ g
  | none => 0

/-- Technical-output markers stripped by `chat_advanced.py`. -/
def advancedMarkers : List (List Char) :=
  ["build:".data, "main:".data, "llama_".data, "llm_".data, "warning:".data, "ggml_".data]

/-- Technical-output markers stripped by `chat.py` (no `ggml_`). -/
def chatMarkers : List (List Char) :=
  ["build:".data, "main:".data, "llama_".data, "llm_".data, "warning:".data]

/-- Marker-stripping loop shared by the non-streaming extractors:
`for marker in markers: if marker in response: response = response.split(marker)[0].strip()`. -/
def cleanMarkers (markers : List (List Char)) (r : List Char) : List Char :=
  markers.foldl (fun resp m => if containsSub m resp then pyStrip (beforeFirst m resp) else resp) r

/-- Result record of `BitNetChatAdvanced.generate_response`; the wall-clock
`generation_time` and the estimated `token_count` are real-time values
outside the embedding.  `tokensPerSecond` is `none` on the failure paths,
whose dictionaries carry no `tokens_per_second` key. -/
structure GenResult where
  response : List Char
  tokensPerSecond : Option ℚ
  success : Bool
deriving DecidableEq

/-- Canned failure text of `chat_advanced.py` when the delimiter is missing. -/
def advancedApology : List Char :=
  "I couldn't generate a proper response. Please try again.".data

/-- Canned failure text of `chat_advanced.py` on `subprocess.TimeoutExpired`. -/
def advancedTimeoutText : List Char :=
  "Response generation timed out. Try reducing max_tokens or simplifying your prompt.".data

/-- Extraction logic of `BitNetChatAdvanced.generate_response` on a
zero-exit process (chat_advanced.py lines 198–233): last `Assistant:`
via `rfind`, strip, marker cleanup, printable filter, and a first-match
performance-regex search over `stderr + stdout`.  `rfindSub = none`
exactly when `assistant_marker in output` is false. -/
def advancedExtract (stdout stderr : List Char) : GenResult :=
  match rfindSub assistantMarker stdout with
  | some p =>
    let response := pyStrip (stdout.drop (p + assistantMarker.length))
    let response := cleanMarkers advancedMarkers response
    let response := response.filter keptChar
    { response := pyStrip response,
      tokensPerSecond := some (searchTokensPerSec (stderr ++ stdout)), success := true }
  | none => { response := advancedApology, tokensPerSecond := none, success := false }

/-- `BitNetChatAdvanced.generate_response` including the exit-code branch:
a non-zero exit reports truncated stderr and `success=False`. -/
def advancedGenerateResponse (returncode : Int) (stdout stderr : List Char) : GenResult :=
  if returncode = 0 then advancedExtract stdout stderr
  else
    { response := "Error generating response: ".data ++ stderr.take 200,
      tokensPerSecond := none, success := false }

/-- Extraction logic of `BitNetChat.generate_response` (chat.py lines
73–100): first `Assistant:` via `find`, the `chat.py` marker list, and a
perf string rendered only when the regex matches; returns
`(response, perf_info)`. -/
def chatExtract (stdout stderr : List Char) : List Char × List Char :=
  match findSub assistantMarker stdout with
  | some p =>
    let response := pyStrip (stdout.drop (p + assistantMarker.length))
    let response := cleanMarkers chatMarkers response
    let response := pyStrip response
    let response := response.filter keptChar
    let perfInfo : List Char :=
      match searchTPS (stderr ++ stdout) with
      | some g => " [".data ++ g ++ " tok/s]".data
      | none => []
    (response, perfInfo)
  | none => ("I couldn't generate a response. Please try again.".data, [])

/-! ### Streaming extractor (`chat_streaming.py`) -/

/-- Python `s.isspace()`: non-empty and all whitespace. -/
def pyIsSpaceStr (l : List Char) : Bool := !l.isEmpty && l.all isPySpace

/-- First marker of the list occurring in `line`, in list order —
the `for marker in tech_markers` loop with `break`. -/
def firstMarkerIn (markers : List (List Char)) (line : List Char) : Option (List Char) :=
  markers.find? (fun m => containsSub m line)

/-- Loop state of `extract_response_streaming`. -/
structure StreamState where
  responseStarted : Bool
  assistantFound : Bool
  responseLines : List (List Char)
  currentLine : List Char
  tokensCount : Nat
  brokeOut : Bool
deriving DecidableEq

/-- Initial loop state. -/
def initStreamState : StreamState :=
  { responseStarted := false, assistantFound := false, responseLines := [],
    currentLine := [], tokensCount := 0, brokeOut := false }

/-- One iteration of the character loop of `extract_response_streaming`
(chat_streaming.py lines 59–114). -/
def streamChar (st : StreamState) (c : Char) : StreamState :=
  let cur0 := st.currentLine ++ [c]
  let foundNow := !st.assistantFound && containsSub assistantMarker cur0
  let cur := if foundNow then afterLast assistantMarker cur0 else cur0
  let found := st.assistantFound || foundNow
  let started := st.responseStarted || foundNow
  if started then
    match firstMarkerIn advancedMarkers cur with
    | some m =>
      let before := beforeFirst m cur
      let lines :=
        if !(pyStrip before).isEmpty then
          let remaining := rstrip before
          if !remaining.isEmpty && !pyIsSpaceStr remaining then st.responseLines ++ [remaining]
          else st.responseLines
        else st.responseLines
      { responseStarted := started, assistantFound := found, responseLines := lines,
        currentLine := cur, tokensCount := st.tokensCount, brokeOut := true }
    | none =>
      let tok := st.tokensCount +
        (if keptChar c && (c = ' ' || c = '\n' || c = '\t') then 1 else 0)
      if c = '\n' then
        { responseStarted := started, assistantFound := found,
          responseLines := st.responseLines ++ [rstrip cur], currentLine := [],
          tokensCount := tok, brokeOut := false }
      else
        { responseStarted := started, assistantFound := found,
          responseLines := st.responseLines, currentLine := cur,
          tokensCount := tok, brokeOut := false }
  else
    { responseStarted := started, assistantFound := found,
      responseLines := st.responseLines, currentLine := cur,
      tokensCount := st.tokensCount, brokeOut := false }

/-- The character loop: processes the finite stdout stream until it is
exhausted or a technical marker breaks out; returns the final state and
the unread remainder of the stream. -/
def streamLoop : StreamState → List Char → StreamState × List Char
  | st, [] => (st, [])
  | st, c :: cs =>
    let st' := streamChar st c
    if st'.brokeOut then (st', cs) else streamLoop st' cs

/-- Result record of `extract_response_streaming`; `generation_time` is a
real-time value outside the embedding. -/
structure StreamResult where
  response : List Char
  tokensPerSecond : ℚ
  tokenCount : Nat
  success : Bool

/-- `BitNetStreamingChat.extract_response_streaming` on the finite
captured streams: the character loop, the trailing-line flush, the
performance-regex search over the *unread* stdout remainder plus stderr,
and `success = bool(full_response)`. -/
def extractResponseStreaming (stdout stderr : List Char) : StreamResult :=
  let res := streamLoop initStreamState stdout
  let st := res.1
  let lines :=
    if !(pyStrip st.currentLine).isEmpty && st.responseStarted
    then st.responseLines ++ [rstrip st.currentLine] else st.responseLines
  let fullResponse := (pyStrip (List.intercalate ['\n'] lines)).filter keptChar
  { response := fullResponse, tokensPerSecond := searchTokensPerSec (res.2 ++ stderr),
    tokenCount := st.tokensCount, success := !fullResponse.isEmpty }

/-! ### Generation settings (`chat_advanced.py`) -/

/-- The flat settings mapping of `BitNetChatAdvanced.__init__`; float
fields live in `ℚ`, int fields in `ℤ`. -/
structure Settings where
  temperature : ℚ
  max_tokens : Int
  threads : Int
  top_k : Int
  top_p : ℚ
  repeat_penalty : ℚ
deriving DecidableEq

/-- Defaults set in `BitNetChatAdvanced.__init__`. -/
def defaultSettings : Settings :=
  { temperature := 7/10, max_tokens := 200, threads := 10,
    top_k := 40, top_p := 19/20, repeat_penalty := 11/10 }

/-- The six numeric keys of the settings mapping. -/
inductive SettingKey
  | temperature | max_tokens | threads | top_k | top_p | repeat_penalty
deriving DecidableEq

/-- Keys parsed with `float(...)` in `change_settings`
(`setting in ['temperature', 'top_p', 'repeat_penalty']`); the rest use
`int(...)`. -/
def isFloatKey : SettingKey → Bool
  | .temperature => true
  | .top_p => true
  | .repeat_penalty => true
  | _ => false

/-- Non-empty all-digit string, the digit run of `int()`/`float()`
literals (digit-group underscores are not modelled). -/
def parseDigits (l : List Char) : Option Nat :=
  if !l.isEmpty && l.all isPyDigit then some (digitsToNat l) else none

/-- Python `int(s)` on decimal strings: surrounding whitespace, an
optional sign, then digits. -/
def pyParseInt (s : List Char) : Option Int :=
  match pyStrip s with
  | '+' :: r => (parseDigits r).map fun n => (n : Int)
  | '-' :: r => (parseDigits r).map fun n => -(n : Int)
  | r => (parseDigits r).map fun n => (n : Int)

/-- Exponent suffix of a float literal: `e`/`E`, optional sign, digits,
consuming the whole input. -/
def parseExpo (l : List Char) : Option Int :=
  match l with
  | 'e' :: r =>
    (match r with
     | '+' :: d => (parseDigits d).map fun n => (n : Int)
     | '-' :: d => (parseDigits d).map fun n => -(n : Int)
     | d => (parseDigits d).map fun n => (n : Int))
  | 'E' :: r =>
    (match r with
     | '+' :: d => (parseDigits d).map fun n => (n : Int)
     | '-' :: d => (parseDigits d).map fun n => -(n : Int)
     | d => (parseDigits d).map fun n => (n : Int))
  | _ => none

/-- Python `float(s)` on finite decimal literals: surrounding whitespace,
optional sign, `digits [. digits]` or `. digits`, optional exponent.
The special literals `inf`/`nan` and digit-group underscores are not
modelled; the claims about malformed input only instantiate strings that
are malformed for Python as well. -/
def pyParseFloat (s : List Char) : Option ℚ :=
  let t0 := pyStrip s
  let signed : ℚ × List Char :=
    match t0 with
    | '+' :: r => (1, r)
    | '-' :: r => (-1, r)
    | r => (1, r)
  let t := signed.2
  let ds := t.takeWhile isPyDigit
  let r := t.dropWhile isPyDigit
  let mant : Option (ℚ × List Char) :=
    if ds.isEmpty then
      match r with
      | '.' :: f =>
        let fd := f.takeWhile isPyDigit
        if fd.isEmpty then none
        else some ((digitsToNat fd : ℚ) / 10 ^ fd.length, f.dropWhile isPyDigit)
      | _ => none
    else
      match r with
      | '.' :: f =>
        let fd := f.takeWhile isPyDigit
        some ((digitsToNat ds : ℚ) + (digitsToNat fd : ℚ) / 10 ^ fd.length, f.dropWhile isPyDigit)
      | _ => some ((digitsToNat ds : ℚ), r)
  match mant with
  | none => none
  | some (m, rest) =>
    if rest.isEmpty then some (signed.1 * m)
    else
      match parseExpo rest with
      | some e => some (signed.1 * m * 10 ^ e)
      | none => none

/-- Numeric branch of `BitNetChatAdvanced.change_settings` (lines
106–124): parse the input per the key's declared type; on success store
it, on `ValueError` report an error and leave the mapping untouched.
Returns the new settings and whether the error path was taken.  The
environment-variable refresh on a successful `threads` change is a
process-global side effect outside this record. -/
def changeSettings (s : Settings) (k : SettingKey) (input : List Char) : Settings × Bool :=
  match k with
  | .temperature =>
    match pyParseFloat input with
    | some v => ({ s with temperature := v }, false)
    | none => (s, true)
  | .top_p =>
    match pyParseFloat input with
    | some v => ({ s with top_p := v }, false)
    | none => (s, true)
  | .repeat_penalty =>
    match pyParseFloat input with
    | some v => ({ s with repeat_penalty := v }, false)
    | none => (s, true)
  | .max_tokens =>
    match pyParseInt input with
    | some v => ({ s with max_tokens := v }, false)
    | none => (s, true)
  | .threads =>
    match pyParseInt input with
    | some v => ({ s with threads := v }, false)
    | none => (s, true)
  | .top_k =>
    match pyParseInt input with
    | some v => ({ s with top_k := v }, false)
    | none => (s, true)

/-! ### Conversation transcripts -/

/-- Python `l[-k:]`: the last `k` elements (all of `l` when shorter). -/
def lastN (k : Nat) (l : List α) : List α := l.drop (l.length - k)

/-- Transcript step of `BitNetChat.run` (chat.py lines 202–208): append
the user and assistant entries, then truncate to the last 20 when the
length exceeds 20. -/
def chatAppendStep (hist : List α) (u a : α) : List α :=
  let h := hist ++ [u, a]
  if 20 < h.length then lastN 20 h else h

/-- Transcript step of `BitNetChatAdvanced.run` (chat_advanced.py lines
352–355): append the user and assistant entries; no truncation occurs
anywhere in that session. -/
def advancedAppendStep (hist : List α) (u a : α) : List α := hist ++ [u, a]

/-- Transcript after a session of exchanges in `chat.py`. -/
def chatHistory (pairs : List (α × α)) : List α :=
  pairs.foldl (fun h p => chatAppendStep h p.1 p.2) []

/-- Transcript after a session of exchanges in `chat_advanced.py`. -/
def advancedHistory (pairs : List (α × α)) : List α :=
  pairs.foldl (fun h p => advancedAppendStep h p.1 p.2) []

/-- The full append sequence of a session, in order. -/
def flattenPairs (pairs : List (α × α)) : List α :=
  pairs.flatMap fun p => [p.1, p.2]

/-! ### Parallelism, thread resolution and timeouts -/

/-- Worker-pool strategies of `parallel_inference.parallel_inference`
(lines 66–72), including the `.get(strategy, (3, 4))` fallback:
(max_workers, threads_per_worker). -/
def strategyConfig (strategy : String) : Nat × Nat :=
  if strategy = "balanced" then (3, 4)
  else if strategy = "concurrent" then (6, 2)
  else if strategy = "power" then (2, 6)
  else (3, 4)

/-- The thread budget the script itself reports: the denominator of the
printed `Total threads used: {total_threads}/10` line. -/
def reportedThreadBudget : Nat := 10

/-- Environment-variable writes performed by `run_inference.run_inference`
before launching the engine (`none` = the variable is not written). -/
structure ThreadEnvWrites where
  omp : Option Nat
  mkl : Option Nat
  openblas : Option Nat
deriving DecidableEq

/-- Thread-count resolution of `run_inference.run_inference` (lines
17–27): a non-positive requested count auto-detects
`min(cpu_count, 10)` and exports it to the three numeric-library
variables; a positive count passes through with no writes. -/
def runInferenceThreads (cpuCount : Nat) (threads : Int) : Int × ThreadEnvWrites :=
  if threads ≤ 0 then
    let t := min cpuCount 10
    ((t : Int), { omp := some t, mkl := some t, openblas := some t })
  else (threads, { omp := none, mkl := none, openblas := none })

/-- The repository's external inference invocations and the wall-clock
timeout (seconds) each passes to the subprocess API; `none` = the call
can block indefinitely. -/
def inferenceInvocations : List (String × Option Nat) :=
  [("chat.generate_response", some 60),
   ("chat_advanced.generate_response", some 120),
   ("chat_streaming.generate_response_streaming", none),
   ("chat_realtime", none),
   ("chat_streaming_v2", none),
   ("benchmark.run_benchmark", none),
   ("benchmark_optimized.run_single_benchmark", none),
   ("run_inference.run_command", none),
   ("parallel_inference.run_single_inference", some 60),
   ("kernel_tuning.benchmark_config", some 60)]

/-- Timeout result of `chat.generate_response`
(`subprocess.TimeoutExpired` handler, chat.py lines 104–105). -/
def chatTimeoutResult : List Char × List Char :=
  ("Response generation timed out. Please try a shorter prompt.".data, [])

/-- Timeout result of `chat_advanced.generate_response` (lines 240–245). -/
def advancedTimeoutResult : GenResult :=
  { response := advancedTimeoutText, tokensPerSecond := none, success := false }

/-- Result record of `parallel_inference.run_single_inference`. -/
structure ParResult where
  prompt : List Char
  output : List Char
  time : ℚ
  success : Bool
  threads : Nat
deriving DecidableEq

/-- Timeout result of `parallel_inference.run_single_inference` (lines
47–54). -/
def parallelTimeoutResult (prompt : List Char) (threads : Nat) : ParResult :=
  { prompt := prompt, output := "Timeout".data, time := 60, success := false,
    threads := threads }

/-- Whether the interactive loop keeps running after an iteration. -/
inductive LoopAction | continueLoop | exitLoop
deriving DecidableEq

/-- One iteration of the `BitNetChatAdvanced.run` loop over the
transcript (lines 280–357), restricted to the transcript-and-exit
behaviour: `/exit` leaves, `/clear` empties the transcript, other
commands keep it, a successful generation appends the exchange, a failed
one (timeout included) reports and continues. -/
def advancedRunStep (hist : List (List Char × List Char)) (input : List Char)
    (r : GenResult) : List (List Char × List Char) × LoopAction :=
  if input.isEmpty then (hist, .continueLoop)
  else if input.head? = some '/' then
    if beforeFirst [' '] input = "/exit".data then (hist, .exitLoop)
    else if beforeFirst [' '] input = "/clear".data then ([], .continueLoop)
    else (hist, .continueLoop)
  else if r.success then
    (hist ++ [("user".data, input), ("assistant".data, r.response)], .continueLoop)
  else (hist, .continueLoop)

/-! ### String-infrastructure lemmas -/

theorem containsSub_iff {sub s : List Char} :
    containsSub sub s = true ↔ sub <:+: s := by
  unfold containsSub
  rw [List.any_eq_true]
  constructor
  · rintro ⟨p, _, hpre⟩
    have h1 : sub <+: s.drop p := List.isPrefixOf_iff_prefix.mp hpre
    exact h1.isInfix.trans (List.drop_suffix p s).isInfix
  · rintro ⟨l, r, rfl⟩
    refine ⟨l.length, ?_, ?_⟩
    · rw [List.mem_range]
      simp only [List.length_append]
      omega
    · rw [ List.isPrefixOf_iff_prefix, List.append_assoc, List.drop_left]
      exact List.prefix_append sub r

theorem containsSub_eq_false_iff {sub s : List Char} :
    containsSub sub s = false ↔ ¬ sub <:+: s := by
  rw [← containsSub_iff]
  cases containsSub sub s <;> simp

theorem containsSub_mono {sub s t : List Char} (hst : s <:+: t)
    (h : containsSub sub s = true) : containsSub sub t = true :=
  containsSub_iff.mpr ((containsSub_iff.mp h).trans hst)

theorem rfindSub_eq_none {sub s : List Char}
    (h : containsSub sub s = false) : rfindSub sub s = none := by
  unfold rfindSub
  have hocc : occPositions sub s = [] := by
    unfold occPositions
    unfold containsSub at h
    rw [List.any_eq_false] at h
    exact List.filter_eq_nil_iff.mpr fun a ha => by simp [h a ha]
  rw [hocc]
  rfl

theorem mem_occPositions {sub s : List Char} {p : Nat} (hps : p ≤ s.length)
    (h : sub <+: s.drop p) : p ∈ occPositions sub s := by
  unfold occPositions
  rw [List.mem_filter, List.mem_range]
  exact ⟨by omega, List.isPrefixOf_iff_prefix.mpr h⟩

theorem length_one_mem_eq {α : Type} {l : List α} {x : α}
    (h1 : l.length = 1) (hx : x ∈ l) : l = [x] := by
  obtain ⟨a, rfl⟩ := List.length_eq_one.mp h1
  simp only [List.mem_singleton] at hx
  rw [hx]

theorem occPositions_delim {pre text : List Char}
    (h1 : (occPositions assistantMarker (pre ++ assistantMarker ++ text)).length = 1) :
    occPositions assistantMarker (pre ++ assistantMarker ++ text) = [pre.length] := by
  refine length_one_mem_eq h1 (mem_occPositions ?_ ?_)
  · simp only [List.length_append]
    omega
  · rw [List.append_assoc, List.drop_left]
    exact List.prefix_append _ _

theorem drop_pre_delim (pre text : List Char) :
    (pre ++ assistantMarker ++ text).drop (pre.length + assistantMarker.length) = text := by
  have h : pre.length + assistantMarker.length = (pre ++ assistantMarker).length := by
    simp
  rw [h, List.drop_left]

theorem dropWhile_idem (p : Char → Bool) (l : List Char) :
    (l.dropWhile p).dropWhile p = l.dropWhile p := by
  induction l with
  | nil => rfl
  | cons c cs ih =>
    by_cases hp : p c
    · simp [List.dropWhile_cons, hp, ih]
    · simp [List.dropWhile_cons, hp]

theorem lstrip_suffix (l : List Char) : lstrip l <:+ l :=
  List.dropWhile_suffix _

theorem rstrip_isPrefixOfSelf (l : List Char) : rstrip l <+: l := by
  have h := List.dropWhile_suffix (l := l.reverse) (p := isPySpace)
  have h2 : (l.reverse.dropWhile isPySpace).reverse.reverse <:+ l.reverse := by
    simpa using h
  exact List.reverse_suffix.mp h2

theorem pyStrip_isInfixOfSelf (l : List Char) : pyStrip l <:+: l :=
  (rstrip_isPrefixOfSelf (lstrip l)).isInfix.trans (lstrip_suffix l).isInfix

theorem rstrip_idem (l : List Char) : rstrip (rstrip l) = rstrip l := by
  unfold rstrip
  rw [List.reverse_reverse, dropWhile_idem]

theorem dropWhile_eq_self_of_isPrefix {p : Char → Bool} {a b : List Char}
    (hab : b <+: a) (ha : a.dropWhile p = a) : b.dropWhile p = b := by
  cases b with
  | nil => rfl
  | cons c cs =>
    cases a with
    | nil => simp at hab
    | cons d ds =>
      obtain ⟨t, ht⟩ := hab
      have hcd : c = d := by
        have := congrArg List.head? ht
        simpa using this
      have hpd : p d = false := by
        by_contra hpd
        have hpd' : p d = true := by
          cases hp : p d
          · exact absurd hp hpd
          · rfl
        rw [List.dropWhile_cons, if_pos hpd'] at ha
        have hlen := congrArg List.length ha
        have hle := (List.dropWhile_suffix (l := ds) (p := p)).length_le
        simp only [List.length_cons] at hlen
        omega
      rw [List.dropWhile_cons, hcd, hpd]
      simp

theorem lstrip_rstrip_lstrip (l : List Char) :
    lstrip (rstrip (lstrip l)) = rstrip (lstrip l) := by
  unfold lstrip
  exact dropWhile_eq_self_of_isPrefix (rstrip_isPrefixOfSelf (lstrip l)) (dropWhile_idem _ _)

theorem pyStrip_idem (l : List Char) : pyStrip (pyStrip l) = pyStrip l := by
  show rstrip (lstrip (rstrip (lstrip l))) = rstrip (lstrip l)
  rw [lstrip_rstrip_lstrip, rstrip_idem]

theorem cleanMarkers_eq_self {markers : List (List Char)} {r : List Char}
    (h : ∀ m ∈ markers, containsSub m r = false) : cleanMarkers markers r = r := by
  unfold cleanMarkers
  induction markers with
  | nil => rfl
  | cons m ms ih =>
    simp only [List.foldl_cons, h m (List.mem_cons_self m ms), Bool.false_eq_true, if_false]
    exact ih fun m' hm' => h m' (List.mem_cons_of_mem m hm')

/-! ### Performance-regex lemmas -/

/-- Strings with no digit character: no regex match can start inside. -/
def digitFree (l : List Char) : Bool := l.all fun c => !isPyDigit c

/-- Shape of a decimal literal as captured by the regex group: a digit
run, optionally followed by a point and a digit run. -/
def wfNum (n : List Char) : Bool :=
  !(n.takeWhile isPyDigit).isEmpty &&
    ((n.dropWhile isPyDigit).isEmpty ||
     ((n.dropWhile isPyDigit).head? = some '.' && (n.dropWhile isPyDigit).tail.all isPyDigit))

/-- Single-space separator between a number and the regex literal. -/
def tpsSep : List Char := ' ' :: tpsLit

theorem matchTPSAt_not_digit {c : Char} (cs : List Char) (h : isPyDigit c = false) :
    matchTPSAt (c :: cs) = none := by
  unfold matchTPSAt
  simp [List.takeWhile_cons, h]

theorem searchTPS_append_digitFree {l : List Char} (r : List Char)
    (h : digitFree l = true) : searchTPS (l ++ r) = searchTPS r := by
  induction l with
  | nil => rfl
  | cons c cs ih =>
    unfold digitFree at h
    simp only [List.all_cons, Bool.and_eq_true, Bool.not_eq_true'] at h
    obtain ⟨hc, hcs⟩ := h
    show searchTPS (c :: (cs ++ r)) = searchTPS r
    simp only [searchTPS]
    rw [matchTPSAt_not_digit _ hc]
    exact ih hcs

theorem findallTPS_append_digitFree {l : List Char} (r : List Char)
    (h : digitFree l = true) : findallTPS (l ++ r) = findallTPS r := by
  induction l with
  | nil => rfl
  | cons c cs ih =>
    unfold digitFree at h
    simp only [List.all_cons, Bool.and_eq_true, Bool.not_eq_true'] at h
    obtain ⟨hc, hcs⟩ := h
    show findallTPS (c :: (cs ++ r)) = findallTPS r
    rw [findallTPS_eq]
    dsimp only
    rw [matchTPSAt_not_digit _ hc]
    exact ih hcs

theorem findallTPS_digitFree {l : List Char} (h : digitFree l = true) :
    findallTPS l = [] := by
  have h2 := findallTPS_append_digitFree ([] : List Char) h
  rwa [List.append_nil] at h2

theorem searchTPS_of_match {s g rest : List Char} (h : matchTPSAt s = some (g, rest)) :
    searchTPS s = some g := by
  cases s with
  | nil => simp [matchTPSAt] at h
  | cons c cs =>
    simp only [searchTPS]
    rw [h]

theorem findallTPS_of_match {s g rest : List Char} (h : matchTPSAt s = some (g, rest)) :
    findallTPS s = g :: findallTPS rest := by
  cases s with
  | nil => simp [matchTPSAt] at h
  | cons c cs =>
    rw [findallTPS_eq]
    dsimp only
    rw [h]

theorem takeWhile_append_all {p : Char → Bool} {ds : List Char} (t : List Char)
    (h : ∀ c ∈ ds, p c = true) :
    (ds ++ t).takeWhile p = ds ++ t.takeWhile p ∧ (ds ++ t).dropWhile p = t.dropWhile p := by
  induction ds with
  | nil => simp
  | cons c cs ih =>
    have hc := h c (List.mem_cons_self c cs)
    obtain ⟨h1, h2⟩ := ih fun c' hc' => h c' (List.mem_cons_of_mem c hc')
    constructor
    · simp [List.takeWhile_cons, hc, h1]
    · simp [List.dropWhile_cons, hc, h2]

theorem dropWhile_space_tpsLit_append (rest : List Char) :
    (tpsLit ++ rest).dropWhile isPySpace = tpsLit ++ rest := by
  have h : tpsLit = 't' :: "okens per second".data := by decide
  rw [h]
  simp [List.dropWhile_cons, isPySpace]

theorem dropLit_self_append (rest : List Char) :
    dropLit tpsLit (tpsLit ++ rest) = some rest := by
  unfold dropLit
  rw [if_pos ( List.isPrefixOf_iff_prefix.mpr (List.prefix_append tpsLit rest))]
  rw [List.drop_left]

theorem matchTPSAt_wf {x : List Char} (rest : List Char) (hx : wfNum x = true) :
    matchTPSAt (x ++ (tpsSep ++ rest)) = some (x, rest) := by
  unfold wfNum at hx
  simp only [Bool.and_eq_true, Bool.or_eq_true, Bool.not_eq_true', decide_eq_true_eq] at hx
  obtain ⟨hds, hshape⟩ := hx
  have hdsall : ∀ c ∈ x.takeWhile isPyDigit, isPyDigit c = true := fun c hc =>
    List.mem_takeWhile_imp hc
  have hxsplit : x.takeWhile isPyDigit ++ x.dropWhile isPyDigit = x :=
    List.takeWhile_append_dropWhile (p := isPyDigit) (l := x)
  have hspace : isPyDigit ' ' = false := by decide
  cases hshape with
  | inl hre =>
    -- x is a pure digit run
    have hrnil : x.dropWhile isPyDigit = [] := by
      cases hr : x.dropWhile isPyDigit
      · rfl
      · rw [hr] at hre; simp at hre
    have hxds : x.takeWhile isPyDigit = x := by
      conv_rhs => rw [← hxsplit]
      rw [hrnil, List.append_nil]
    unfold matchTPSAt
    have htw : (x ++ (tpsSep ++ rest)).takeWhile isPyDigit = x := by
      have h := (takeWhile_append_all (p := isPyDigit) (tpsSep ++ rest)
        (by rw [hxds] at hdsall; exact hdsall)).1
      rw [h]
      show x ++ (' ' :: (tpsLit ++ rest)).takeWhile isPyDigit = x
      simp [List.takeWhile_cons, hspace]
    have hdw : (x ++ (tpsSep ++ rest)).dropWhile isPyDigit = tpsSep ++ rest := by
      have h := (takeWhile_append_all (p := isPyDigit) (tpsSep ++ rest)
        (by rw [hxds] at hdsall; exact hdsall)).2
      rw [h]
      show (' ' :: (tpsLit ++ rest)).dropWhile isPyDigit = ' ' :: (tpsLit ++ rest)
      simp [List.dropWhile_cons, hspace]
    rw [htw, hdw]
    have hxne : x.isEmpty = false := by rw [← hxds]; exact hds
    rw [if_neg (by simp [hxne])]
    have hfr : tpsFracSplit (tpsSep ++ rest) = ([], tpsSep ++ rest) := by
      show tpsFracSplit (' ' :: (tpsLit ++ rest)) = _
      rfl
    rw [hfr]
    show (match dropLit tpsLit ((' ' :: (tpsLit ++ rest)).dropWhile isPySpace) with
      | some r => some (x ++ [], r)
      | none => none) = some (x, rest)
    rw [List.dropWhile_cons, if_pos (by decide : isPySpace ' ' = true),
      dropWhile_space_tpsLit_append, dropLit_self_append]
    simp
  | inr hre =>
    obtain ⟨hhead, htail⟩ := hre
    obtain ⟨fd, hr⟩ : ∃ fd, x.dropWhile isPyDigit = '.' :: fd := by
      cases hr : x.dropWhile isPyDigit
      · rw [hr] at hhead; simp at hhead
      · rename_i hd tl
        rw [hr] at hhead
        simp only [List.head?_cons, Option.some.injEq] at hhead
        exact ⟨tl, by rw [hhead]⟩
    have hfdall : ∀ c ∈ fd, isPyDigit c = true := by
      rw [hr] at htail
      simp only [List.tail_cons, List.all_eq_true] at htail
      exact htail
    set ds := x.takeWhile isPyDigit with hdsdef
    have hxeq : x = ds ++ '.' :: fd := by rw [← hxsplit, hr]
    unfold matchTPSAt
    have htw : (x ++ (tpsSep ++ rest)).takeWhile isPyDigit = ds := by
      rw [hxeq, List.append_assoc]
      have h := (takeWhile_append_all (p := isPyDigit) ('.' :: fd ++ (tpsSep ++ rest))
        (fun c hc => hdsall c hc)).1
      rw [h]
      simp [List.takeWhile_cons, (by decide : isPyDigit '.' = false)]
    have hdw : (x ++ (tpsSep ++ rest)).dropWhile isPyDigit = '.' :: (fd ++ (tpsSep ++ rest)) := by
      rw [hxeq, List.append_assoc]
      have h := (takeWhile_append_all (p := isPyDigit) ('.' :: fd ++ (tpsSep ++ rest))
        (fun c hc => hdsall c hc)).2
      rw [h]
      simp [List.dropWhile_cons, (by decide : isPyDigit '.' = false)]
    rw [htw, hdw]
    have hdsne : ds.isEmpty = false := hds
    rw [if_neg (by simp [hdsne])]
    have hfr : tpsFracSplit ('.' :: (fd ++ (tpsSep ++ rest))) =
        ('.' :: fd, tpsSep ++ rest) := by
      unfold tpsFracSplit
      have h1 := (takeWhile_append_all (p := isPyDigit) (tpsSep ++ rest) hfdall).1
      have h2 := (takeWhile_append_all (p := isPyDigit) (tpsSep ++ rest) hfdall).2
      simp only
      rw [h1, h2]
      show ('.' :: (fd ++ (' ' :: (tpsLit ++ rest)).takeWhile isPyDigit),
        (' ' :: (tpsLit ++ rest)).dropWhile isPyDigit) = _
      simp [tpsSep, List.takeWhile_cons, List.dropWhile_cons, hspace]
    rw [hfr]
    show (match dropLit tpsLit ((tpsSep ++ rest).dropWhile isPySpace) with
      | some r => some (ds ++ '.' :: fd, r)
      | none => none) = some (x, rest)
    show (match dropLit tpsLit ((' ' :: (tpsLit ++ rest)).dropWhile isPySpace) with
      | some r => some (ds ++ '.' :: fd, r)
      | none => none) = some (x, rest)
    rw [List.dropWhile_cons, if_pos (by decide : isPySpace ' ' = true),
      dropWhile_space_tpsLit_append, dropLit_self_append]
    rw [← hxeq]

/-! ### Transcript lemmas -/

theorem suffix_eq_drop {α : Type} {s l : List α} (h : s <:+ l) :
    s = l.drop (l.length - s.length) := by
  obtain ⟨t, rfl⟩ := h
  rw [List.length_append]
  have h2 : t.length + s.length - s.length = t.length := by omega
  rw [h2, List.drop_left]

theorem lastN_suffix {α : Type} (k : Nat) (l : List α) : lastN k l <:+ l :=
  List.drop_suffix _ _

theorem lastN_length {α : Type} (k : Nat) (l : List α) :
    (lastN k l).length = min k l.length := by
  unfold lastN
  rw [List.length_drop]
  omega

theorem lastN_of_le {α : Type} {k : Nat} {l : List α} (h : l.length ≤ k) :
    lastN k l = l := by
  unfold lastN
  have h2 : l.length - k = 0 := by omega
  rw [h2, List.drop_zero]

theorem lastN_append_lastN {α : Type} (k : Nat) (x y : List α) :
    lastN k (lastN k x ++ y) = lastN k (x ++ y) := by
  have hs1 : lastN k (lastN k x ++ y) <:+ x ++ y := by
    apply (lastN_suffix k _).trans
    obtain ⟨t, ht⟩ := lastN_suffix k x
    exact ⟨t, by rw [← List.append_assoc, ht]⟩
  have hs2 : lastN k (x ++ y) <:+ x ++ y := lastN_suffix k _
  have hlen : (lastN k (lastN k x ++ y)).length = (lastN k (x ++ y)).length := by
    rw [lastN_length, lastN_length, List.length_append, List.length_append, lastN_length]
    omega
  rw [suffix_eq_drop hs1, suffix_eq_drop hs2, hlen]

theorem chatAppendStep_eq {α : Type} (hist : List α) (u a : α) :
    chatAppendStep hist u a = lastN 20 (hist ++ [u, a]) := by
  unfold chatAppendStep
  by_cases h2 : 20 < (hist ++ [u, a]).length
  · rw [if_pos h2]
  · rw [if_neg h2]
    exact (lastN_of_le (by omega : (hist ++ [u, a]).length ≤ 20)).symm

theorem chatFold_eq {α : Type} :
    ∀ (pairs : List (α × α)) (h0 : List α), h0.length ≤ 20 →
      pairs.foldl (fun h p => chatAppendStep h p.1 p.2) h0 =
        lastN 20 (h0 ++ flattenPairs pairs) := by
  intro pairs
  induction pairs with
  | nil =>
    intro h0 h
    simp only [List.foldl_nil, flattenPairs, List.flatMap_nil, List.append_nil]
    exact (lastN_of_le h).symm
  | cons pr rest ih =>
    intro h0 h
    simp only [List.foldl_cons]
    rw [chatAppendStep_eq]
    have hlen : (lastN 20 (h0 ++ [pr.1, pr.2])).length ≤ 20 := by
      rw [lastN_length]
      omega
    rw [ih _ hlen, lastN_append_lastN]
    congr 1
    simp [flattenPairs, List.append_assoc]

theorem advancedFold_eq {α : Type} :
    ∀ (pairs : List (α × α)) (h0 : List α),
      pairs.foldl (fun h p => advancedAppendStep h p.1 p.2) h0 =
        h0 ++ flattenPairs pairs := by
  intro pairs
  induction pairs with
  | nil =>
    intro h0
    simp [flattenPairs]
  | cons pr rest ih =>
    intro h0
    simp only [List.foldl_cons]
    rw [ih]
    simp [advancedAppendStep, flattenPairs, List.append_assoc]

/-! ### Extractor unfolding lemmas -/

theorem advancedExtract_found {stdout stderr : List Char} {p : Nat}
    (hr : rfindSub assistantMarker stdout = some p) :
    advancedExtract stdout stderr =
      { response := pyStrip ((cleanMarkers advancedMarkers
          (pyStrip (stdout.drop (p + assistantMarker.length)))).filter keptChar),
        tokensPerSecond := some (searchTokensPerSec (stderr ++ stdout)),
        success := true } := by
  unfold advancedExtract
  rw [hr]

theorem advancedExtract_notfound {stdout stderr : List Char}
    (hr : rfindSub assistantMarker stdout = none) :
    advancedExtract stdout stderr =
      { response := advancedApology, tokensPerSecond := none, success := false } := by
  unfold advancedExtract
  rw [hr]

theorem chatExtract_found {stdout stderr : List Char} {p : Nat}
    (hf : findSub assistantMarker stdout = some p) :
    chatExtract stdout stderr =
      ((pyStrip (cleanMarkers chatMarkers
          (pyStrip (stdout.drop (p + assistantMarker.length))))).filter keptChar,
       match searchTPS (stderr ++ stdout) with
       | some g => " [".data ++ g ++ " tok/s]".data
       | none => []) := by
  unfold chatExtract
  rw [hf]

/-! ### Claim theorems -/

/-- Claim C3 (counterexample): in `chat_advanced.py` the transcript is
never truncated, so after 11 exchanges it holds 22 entries, exceeding
the claimed bound K = 20. -/
theorem c3_counterexample :
    20 < (advancedHistory (List.replicate 11 ((0 : Nat), (0 : Nat)))).length := by
  decide

/-- Claim C3 (amended): in `chat.py` each append-and-truncate step keeps
the transcript at the most recent 20 entries — the retained transcript is
exactly the 20-entry suffix of the full append sequence, order preserved,
so the oldest entries are dropped first — while `chat_advanced.py` merely
appends and its transcript is the whole unbounded append sequence. -/
theorem c3_transcript_truncation_amended (α : Type) (pairs : List (α × α)) :
    chatHistory pairs = lastN 20 (flattenPairs pairs) ∧
    (chatHistory pairs).length ≤ 20 ∧
    advancedHistory pairs = flattenPairs pairs := by
  have h1 : chatHistory pairs = lastN 20 (flattenPairs pairs) := by
    unfold chatHistory
    rw [chatFold_eq pairs [] (by simp), List.nil_append]
  refine ⟨h1, ?_, ?_⟩
  · rw [h1, lastN_length]
    omega
  · unfold advancedHistory
    rw [advancedFold_eq pairs [], List.nil_append]

/-- Claim C6: setting any numeric field of the settings mapping to a
string that does not parse as its declared numeric type reports an error
and leaves the whole settings mapping (this field and every other)
unchanged. -/
theorem c6_invalid_setting_unchanged (s : Settings) (k : SettingKey) (input : List Char)
    (hf : isFloatKey k = true → pyParseFloat input = none)
    (hi : isFloatKey k = false → pyParseInt input = none) :
    changeSettings s k input = (s, true) := by
  cases k
  case temperature => simp only [changeSettings]; rw [hf rfl]
  case top_p => simp only [changeSettings]; rw [hf rfl]
  case repeat_penalty => simp only [changeSettings]; rw [hf rfl]
  case max_tokens => simp only [changeSettings]; rw [hi rfl]
  case threads => simp only [changeSettings]; rw [hi rfl]
  case top_k => simp only [changeSettings]; rw [hi rfl]

/-- Witness for C6: a float field fed a non-numeric string and an int
field fed a float literal are both rejected with the settings intact. -/
theorem c6_invalid_setting_unchanged_witness :
    changeSettings defaultSettings SettingKey.temperature "abc".data = (defaultSettings, true) ∧
    changeSettings defaultSettings SettingKey.max_tokens "1.5".data = (defaultSettings, true) :=
  ⟨c6_invalid_setting_unchanged _ _ _ (fun _ => by decide) (fun h => by simp [isFloatKey] at h),
   c6_invalid_setting_unchanged _ _ _ (fun h => by simp [isFloatKey] at h) (fun _ => by decide)⟩

/-- Claim C8: every named concurrency strategy of the worker pool
(balanced, concurrent, power — and the fallback) multiplies out to
3×4 = 6×2 = 2×6 = 12 worker-threads, which exceeds the 10-thread budget
the script itself reports in its `Total threads used: …/10` line; the
spec's requirement that the product stay within the budget is the intent
and the hard-coded strategy table violates it. -/
theorem c8_strategy_products_exceed_budget (strategy : String) :
    (strategyConfig strategy).1 * (strategyConfig strategy).2 = 12 ∧
    reportedThreadBudget < (strategyConfig strategy).1 * (strategyConfig strategy).2 := by
  unfold strategyConfig reportedThreadBudget
  split_ifs <;> simp

/-- Claim C9: a non-positive thread argument (the default 0 included)
resolves to `min(cpu_count, 10)` and exports exactly that value to
`OMP_NUM_THREADS`, `MKL_NUM_THREADS` and `OPENBLAS_NUM_THREADS`, while a
positive argument passes through unchanged with none of the three
variables written. -/
theorem c9_run_inference_thread_resolution (cpuCount : Nat) (threads : Int) :
    (threads ≤ 0 →
      runInferenceThreads cpuCount threads =
        (((min cpuCount 10 : Nat) : Int),
         { omp := some (min cpuCount 10), mkl := some (min cpuCount 10),
           openblas := some (min cpuCount 10) })) ∧
    (0 < threads →
      runInferenceThreads cpuCount threads =
        (threads, { omp := none, mkl := none, openblas := none })) := by
  constructor
  · intro h
    unfold runInferenceThreads
    rw [if_pos h]
  · intro h
    unfold runInferenceThreads
    rw [if_neg (by omega)]

/-- Witness for C9 on a 12-thread host: auto-detection yields 10 with all
three variables exported, and an explicit 4 passes through untouched. -/
theorem c9_run_inference_thread_resolution_witness :
    runInferenceThreads 12 0 =
      ((10 : Int), { omp := some 10, mkl := some 10, openblas := some 10 }) ∧
    runInferenceThreads 12 4 =
      ((4 : Int), { omp := none, mkl := none, openblas := none }) := by
  constructor
  · have h := (c9_run_inference_thread_resolution 12 0).1 (by norm_num)
    simpa using h
  · exact (c9_run_inference_thread_resolution 12 4).2 (by norm_num)

theorem isEmptyFalseIffNeNil {l : List Char} : l.isEmpty = false ↔ l ≠ [] := by
  cases l <;> simp

/-- Claim C10: for every captured stream pair, the streaming extractor's
success flag is true exactly when the cleaned response it returns is
non-empty, so success implies there is text to record. -/
theorem c10_streaming_success_iff_nonempty (stdout stderr : List Char) :
    (extractResponseStreaming stdout stderr).success = true ↔
    (extractResponseStreaming stdout stderr).response ≠ [] := by
  unfold extractResponseStreaming
  dsimp only
  rw [Bool.not_eq_true']
  exact isEmptyFalseIffNeNil

theorem streamLoop_no_delim :
    ∀ (rest done : List Char) (t : Nat),
      containsSub assistantMarker (done ++ rest) = false →
      streamLoop { responseStarted := false, assistantFound := false, responseLines := [],
                   currentLine := done, tokensCount := t, brokeOut := false } rest =
        ({ responseStarted := false, assistantFound := false, responseLines := [],
           currentLine := done ++ rest, tokensCount := t, brokeOut := false }, []) := by
  intro rest
  induction rest with
  | nil =>
    intro done t _
    simp [streamLoop]
  | cons c cs ih =>
    intro done t h
    have hc : containsSub assistantMarker (done ++ [c]) = false := by
      rw [containsSub_eq_false_iff] at h ⊢
      intro hin
      exact h (hin.trans ⟨[], cs, by simp⟩)
    show streamLoop _ (c :: cs) = _
    simp only [streamLoop]
    have hstep : streamChar ⟨false, false, [], done, t, false⟩ c =
        ⟨false, false, [], done ++ [c], t, false⟩ := by
      simp [streamChar, hc]
    rw [hstep]
    simp only [Bool.false_eq_true, if_false]
    have h2 : containsSub assistantMarker ((done ++ [c]) ++ cs) = false := by
      rw [List.append_assoc]
      simpa using h
    have h3 := ih (done ++ [c]) t h2
    rwa [List.append_assoc, List.singleton_append] at h3

/-- Stream used to refute claim C2 as stated: no `Assistant:` anywhere. -/
def c2Stream : List Char := "model loaded without any marker".data

/-- Claim C2 (counterexample): on a stream without the delimiter the
`chat_advanced.py` extractor does return success=false, but its response
is a canned non-empty apology, not the empty string the claim asserts. -/
theorem c2_counterexample :
    containsSub assistantMarker c2Stream = false ∧
    (advancedExtract c2Stream []).success = false ∧
    (advancedExtract c2Stream []).response ≠ [] := by
  decide

/-- Claim C2 (amended): when the delimiter never appears both extractors
report success=false; the streaming extractor returns the empty response
the claim describes, while the advanced-chat extractor returns a fixed
non-empty apology message instead. -/
theorem c2_no_delimiter_amended (stdout stderr : List Char)
    (h : containsSub assistantMarker stdout = false) :
    (advancedExtract stdout stderr).success = false ∧
    (advancedExtract stdout stderr).response = advancedApology ∧
    (extractResponseStreaming stdout stderr).success = false ∧
    (extractResponseStreaming stdout stderr).response = [] := by
  have hadv := @advancedExtract_notfound stdout stderr (rfindSub_eq_none h)
  have hloop := streamLoop_no_delim stdout [] 0 (by simpa using h)
  refine ⟨by rw [hadv], by rw [hadv], ?_, ?_⟩
  · unfold extractResponseStreaming initStreamState
    rw [hloop]
    simp [pyStrip, lstrip, rstrip, List.intercalate]
  · unfold extractResponseStreaming initStreamState
    rw [hloop]
    simp [pyStrip, lstrip, rstrip, List.intercalate]

/-- Witness for C2 (amended) on a concrete delimiter-free stream. -/
theorem c2_no_delimiter_amended_witness :
    (advancedExtract "model loaded".data []).success = false ∧
    (advancedExtract "model loaded".data []).response = advancedApology ∧
    (extractResponseStreaming "model loaded".data []).success = false ∧
    (extractResponseStreaming "model loaded".data []).response = [] :=
  c2_no_delimiter_amended _ _ (by decide)

/-- Mocked process output of the end-to-end scenario of claim C5. -/
def c5Stdout : List Char :=
  "...Assistant: Paris is the capital.\nllama_perf: eval time = 10 ms / 5 tokens (2 ms per token, 50.00 tokens per second)".data

/-- Claim C5: on the mocked output with exit code 0 the advanced-chat
extractor yields the response `Paris is the capital.` and the
tokens-per-second metric 50.0. -/
theorem c5_paris_scenario :
    (advancedGenerateResponse 0 c5Stdout []).response = "Paris is the capital.".data ∧
    (advancedGenerateResponse 0 c5Stdout []).tokensPerSecond = some 50 ∧
    (advancedGenerateResponse 0 c5Stdout []).success = true := by
  have h0 : advancedGenerateResponse 0 c5Stdout [] = advancedExtract c5Stdout [] := by
    unfold advancedGenerateResponse
    rw [if_pos rfl]
  have hr : rfindSub assistantMarker c5Stdout = some 3 := by decide
  have hx := @advancedExtract_found c5Stdout [] 3 hr
  rw [h0, hx]
  refine ⟨by decide, ?_, rfl⟩
  have h1 : searchTPS (([] : List Char) ++ c5Stdout) = some "50.00".data := by decide
  have hs : searchTokensPerSec (([] : List Char) ++ c5Stdout) = parseFloatQ "50.00".data := by
    unfold searchTokensPerSec
    rw [h1]
  dsimp only
  rw [hs]
  have hp : parseFloatParts "50.00".data = (5000, 2) := by decide
  unfold parseFloatQ
  rw [hp]
  norm_num

/-- Stream used to refute claim C4 as stated: printable text after the
single delimiter containing the technical marker `main:`. -/
def c4Stdout : List Char := "Assistant: A main: B".data

/-- Claim C4 (counterexample): the delimiter occurs exactly once (at 0)
followed by printable text, yet the extractor returns `A` — the marker
cleanup truncates at `main:` — instead of the full trimmed text
`A main: B`. -/
theorem c4_counterexample :
    occPositions assistantMarker c4Stdout = [0] ∧
    (c4Stdout.drop assistantMarker.length).all keptChar = true ∧
    pyStrip (c4Stdout.drop assistantMarker.length) = "A main: B".data ∧
    (advancedExtract c4Stdout []).response = "A".data ∧
    "A".data ≠ "A main: B".data := by
  decide

/-- Claim C4 (amended): for every stream containing the delimiter exactly
once followed by printable text that contains none of the technical
marker substrings (`build:`, `main:`, `llama_`, `llm_`, `warning:`,
`ggml_`), both non-streaming extractors return exactly the text after the
delimiter trimmed of leading and trailing whitespace. -/
theorem c4_amended_delimiter_extraction (pre text stderr : List Char)
    (hocc : (occPositions assistantMarker (pre ++ assistantMarker ++ text)).length = 1)
    (hprint : ∀ c ∈ text, keptChar c = true)
    (hmark : ∀ m ∈ advancedMarkers, containsSub m text = false) :
    (advancedExtract (pre ++ assistantMarker ++ text) stderr).response = pyStrip text ∧
    (advancedExtract (pre ++ assistantMarker ++ text) stderr).success = true ∧
    (chatExtract (pre ++ assistantMarker ++ text) stderr).1 = pyStrip text := by
  have hpos := occPositions_delim hocc
  have hrf : rfindSub assistantMarker (pre ++ assistantMarker ++ text) = some pre.length := by
    unfold rfindSub
    rw [hpos]
    rfl
  have hff : findSub assistantMarker (pre ++ assistantMarker ++ text) = some pre.length := by
    unfold findSub
    rw [hpos]
    rfl
  have hdrop := drop_pre_delim pre text
  have hmark2 : ∀ m ∈ advancedMarkers, containsSub m (pyStrip text) = false := by
    intro m hm
    rw [containsSub_eq_false_iff]
    intro hin
    exact containsSub_eq_false_iff.mp (hmark m hm) (hin.trans (pyStrip_isInfixOfSelf text))
  have hclean : cleanMarkers advancedMarkers (pyStrip text) = pyStrip text :=
    cleanMarkers_eq_self hmark2
  have hcleanChat : cleanMarkers chatMarkers (pyStrip text) = pyStrip text := by
    apply cleanMarkers_eq_self
    intro m hm
    have hsub : ∀ m' ∈ chatMarkers, m' ∈ advancedMarkers := by decide
    exact hmark2 m (hsub m hm)
  have hfilter : (pyStrip text).filter keptChar = pyStrip text := by
    rw [List.filter_eq_self]
    intro c hc
    exact hprint c ((pyStrip_isInfixOfSelf text).sublist.subset hc)
  refine ⟨?_, ?_, ?_⟩
  · rw [advancedExtract_found hrf]
    dsimp only
    rw [hdrop, hclean, hfilter, pyStrip_idem]
  · rw [advancedExtract_found hrf]
  · rw [chatExtract_found hff]
    dsimp only
    rw [hdrop, hcleanChat, pyStrip_idem, hfilter]

/-- Witness for C4 (amended) on a concrete marker-free stream. -/
theorem c4_amended_delimiter_extraction_witness :
    (advancedExtract ("log ".data ++ assistantMarker ++ " Paris. ".data) []).response =
      pyStrip " Paris. ".data ∧
    (advancedExtract ("log ".data ++ assistantMarker ++ " Paris. ".data) []).success = true ∧
    (chatExtract ("log ".data ++ assistantMarker ++ " Paris. ".data) []).1 =
      pyStrip " Paris. ".data :=
  c4_amended_delimiter_extraction _ _ _ (by decide) (by decide) (by decide)

/-- Stream used to refute claim C1 as stated: two metric substrings, the
prompt-evaluation one first. -/
def c1Stdout : List Char :=
  "Assistant: ok\n2.0 tokens per second then 50.0 tokens per second".data

/-- Claim C1 (counterexample): on a stream carrying the metric substrings
`2.0 tokens per second` then `50.0 tokens per second`, the advanced-chat
extractor (which uses `re.search`) reports the first value 2.0, not the
last value 50.0 the claim demands; only `re.findall`'s last element is
50.0. -/
theorem c1_counterexample :
    containsSub "2.0 tokens per second".data c1Stdout = true ∧
    containsSub "50.0 tokens per second".data c1Stdout = true ∧
    (findallTPS c1Stdout).getLast? = some "50.0".data ∧
    searchTPS (([] : List Char) ++ c1Stdout) = some "2.0".data ∧
    (advancedExtract c1Stdout []).tokensPerSecond = some (parseFloatQ "2.0".data) ∧
    parseFloatQ "2.0".data ≠ parseFloatQ "50.0".data := by
  refine ⟨by decide, by decide, by decide, by decide, ?_, ?_⟩
  · have hr : rfindSub assistantMarker c1Stdout = some 0 := by decide
    rw [advancedExtract_found hr]
    dsimp only
    unfold searchTokensPerSec
    rw [(by decide : searchTPS (([] : List Char) ++ c1Stdout) = some "2.0".data)]
  · have h2 : parseFloatParts "2.0".data = (20, 1) := by decide
    have h5 : parseFloatParts "50.0".data = (500, 1) := by decide
    unfold parseFloatQ
    rw [h2, h5]
    norm_num

/-- Claim C1 (amended): on a stream carrying exactly the two metric
substrings `X tokens per second` then `Y tokens per second`, the
benchmark extractor (`re.findall`, last element) parses and returns Y,
while the chat extractors (`re.search`, first match) parse and return X. -/
theorem c1_amended_last_vs_first (pre x mid y post : List Char)
    (hpre : digitFree pre = true) (hmid : digitFree mid = true)
    (hpost : digitFree post = true)
    (hx : wfNum x = true) (hy : wfNum y = true) :
    findallTPS (pre ++ (x ++ (tpsSep ++ (mid ++ (y ++ (tpsSep ++ post)))))) = [x, y] ∧
    benchmarkTokensPerSec (pre ++ (x ++ (tpsSep ++ (mid ++ (y ++ (tpsSep ++ post)))))) =
      parseFloatQ y ∧
    searchTokensPerSec (pre ++ (x ++ (tpsSep ++ (mid ++ (y ++ (tpsSep ++ post)))))) =
      parseFloatQ x := by
  have hm1 := matchTPSAt_wf (mid ++ (y ++ (tpsSep ++ post))) hx
  have hm2 := matchTPSAt_wf post hy
  have hfind : findallTPS (pre ++ (x ++ (tpsSep ++ (mid ++ (y ++ (tpsSep ++ post)))))) =
      [x, y] := by
    rw [findallTPS_append_digitFree _ hpre, findallTPS_of_match hm1,
      findallTPS_append_digitFree _ hmid, findallTPS_of_match hm2,
      findallTPS_digitFree hpost]
  refine ⟨hfind, ?_, ?_⟩
  · unfold benchmarkTokensPerSec
    rw [hfind]
    rfl
  · unfold searchTokensPerSec
    rw [searchTPS_append_digitFree _ hpre, searchTPS_of_match hm1]

/-- Witness for C1 (amended) on a concrete two-metric stream. -/
theorem c1_amended_last_vs_first_witness :
    findallTPS ("eval: ".data ++ ("2.5".data ++ (tpsSep ++ (", gen: ".data ++
      ("50".data ++ (tpsSep ++ " done".data)))))) = ["2.5".data, "50".data] ∧
    benchmarkTokensPerSec ("eval: ".data ++ ("2.5".data ++ (tpsSep ++ (", gen: ".data ++
      ("50".data ++ (tpsSep ++ " done".data)))))) = parseFloatQ "50".data ∧
    searchTokensPerSec ("eval: ".data ++ ("2.5".data ++ (tpsSep ++ (", gen: ".data ++
      ("50".data ++ (tpsSep ++ " done".data)))))) = parseFloatQ "2.5".data :=
  c1_amended_last_vs_first _ _ _ _ _ (by decide) (by decide) (by decide) (by decide) (by decide)

/-- Claim C7 (counterexample): two external inference invocations of the
repository pass no timeout at all to the subprocess API, refuting
`every external inference invocation runs under a bounded timeout`. -/
theorem c7_counterexample :
    ("benchmark_optimized.run_single_benchmark", (none : Option Nat)) ∈ inferenceInvocations ∧
    ("run_inference.run_command", (none : Option Nat)) ∈ inferenceInvocations := by
  decide

/-- Claim C7 (amended): the chat drivers and the parallel-inference
worker run under bounded timeouts (60 s, 120 s, 60 s); on expiry each
returns a distinct timed-out failure result (success=false with a
message identifying the timeout, or the literal `Timeout` output), and
the interactive loop continues with the transcript untouched rather than
exiting; the benchmark scripts and `run_inference.run_command` invoke the
engine with no timeout. -/
theorem c7_amended_timeouts :
    ("chat.generate_response", some 60) ∈ inferenceInvocations ∧
    ("chat_advanced.generate_response", some 120) ∈ inferenceInvocations ∧
    ("parallel_inference.run_single_inference", some 60) ∈ inferenceInvocations ∧
    advancedTimeoutResult.success = false ∧
    containsSub "timed out".data advancedTimeoutResult.response = true ∧
    containsSub "timed out".data chatTimeoutResult.1 = true ∧
    (parallelTimeoutResult "p".data 4).success = false ∧
    (parallelTimeoutResult "p".data 4).output = "Timeout".data ∧
    (∀ (hist : List (List Char × List Char)) (input : List Char),
      input ≠ [] → input.head? ≠ some '/' →
      advancedRunStep hist input advancedTimeoutResult = (hist, LoopAction.continueLoop)) := by
  refine ⟨by decide, by decide, by decide, by decide, by decide, by decide, by decide,
    by decide, ?_⟩
  intro hist input hne hslash
  have h1 : input.isEmpty = false := by
    cases input
    · exact absurd rfl hne
    · rfl
  simp [advancedRunStep, h1, hslash, advancedTimeoutResult]

/-- Witness for C7 (amended): a timed-out generation on a concrete
non-command input leaves the transcript unchanged and the loop running. -/
theorem c7_amended_timeouts_witness :
    advancedRunStep [] "hello".data advancedTimeoutResult = ([], LoopAction.continueLoop) :=
  c7_amended_timeouts.2.2.2.2.2.2.2.2 [] "hello".data (by decide) (by decide)
